import Mathlib

set_option maxRecDepth 20000

/-
Verification of the go-wal log engine (src/finalLof/main.go) against its
specification.  The Go program is shallowly embedded: the engine state
(struct WAL), the on-disk files, the bufio buffer and the global segment
name cache are explicit values; every I/O boundary that can fail in Go
(encode, flush, fsync, stat, close, open) is driven by an explicit record
of outcomes, so that both the success paths and the error paths of the
source are captured as pure functions.
-/

/-! ## Constants (main.go lines 15-20) -/

def segmentPrefix : String := "wal_"

def maxSegmentSize : Int := 500

def walDir : String := "wal_data"

/-! ## Go standard-library string helpers used by the source -/

/-- Embedding of Go strings.HasPrefix. -/
def goHasPre (s p : String) : Bool := p.data.isPrefixOf s.data

/-- Embedding of Go strings.TrimPrefix: drop `p` from the front of `s` when it
is a prefix, otherwise return `s` unchanged. -/
def goTrimPre (s p : String) : String :=
  if p.data.isPrefixOf s.data then ⟨s.data.drop p.data.length⟩ else s

/-- Embedding of Go strings.TrimSuffix: drop `p` from the end of `s` when it
is a suffix, otherwise return `s` unchanged. -/
def goTrimSuf (s p : String) : String :=
  if p.data.isSuffixOf s.data then ⟨s.data.take (s.data.length - p.data.length)⟩ else s

/-- Numeric value of a list of decimal digit characters. -/
def digitsVal (l : List Char) : Nat :=
  l.foldl (fun a c => 10 * a + (c.toNat - '0'.toNat)) 0

/-- Embedding of Go strconv.Atoi: an optional sign followed by one or more
decimal digits (leading zeros allowed), nothing else; every other string is
an error (`none`).  Go's int64 range check is not modelled: the indices the
program handles are far below it. -/
def goAtoi (s : String) : Option Int :=
  match s.data with
  | [] => none
  | '+' :: rest =>
      if rest ≠ [] ∧ rest.all Char.isDigit then some (digitsVal rest) else none
  | '-' :: rest =>
      if rest ≠ [] ∧ rest.all Char.isDigit then some (-(digitsVal rest : Int)) else none
  | l =>
      if l.all Char.isDigit then some (digitsVal l) else none

/-- Embedding of Go filepath.Join for the two-argument calls of the source.
On the arguments the program produces (a clean directory name and a file
name) Join is concatenation with a single separator; the additional Clean
pass of Go is the identity there. -/
def goFilepathJoin (d f : String) : String :=
  if d = "" then f else d ++ "/" ++ f

/-! ## Segment naming (segmentFileName, main.go lines 38-55) -/

/-- Key of the process-wide segment name cache: fmt.Sprintf("%s:%d", directory, index). -/
def cacheKey (directory : String) (index : Int) : String :=
  directory ++ ":" ++ toString index

/-- The path segmentFileName computes when the cache misses:
filepath.Join(directory, fmt.Sprintf("%s%d.log", segmentPrefix, index)). -/
def pureSegmentName (directory : String) (index : Int) : String :=
  goFilepathJoin directory (segmentPrefix ++ toString index ++ ".log")

/-- The global segmentNameCache, modelled as an association list; a Go map
assignment is modelled by consing the new binding (lookup returns the most
recent binding for a key). -/
abbrev Cache := List (String × String)

def cacheLookup : Cache → String → Option String
  | [], _ => none
  | (k, v) :: t, key => if k = key then some v else cacheLookup t key

/-- Embedding of segmentFileName (main.go lines 42-55): consult the cache,
otherwise compute the path and record it. -/
def segmentFileName (c : Cache) (directory : String) (index : Int) : String × Cache :=
  let key := cacheKey directory index
  match cacheLookup c key with
  | some name => (name, c)
  | none =>
      let name := pureSegmentName directory index
      (name, (key, name) :: c)

/-- Sanity of one cache key: it is either unbound or bound to the path the
cache miss would compute.  The run starting from the empty cache only ever
produces such bindings. -/
def cacheSane (c : Cache) (d : String) (i : Int) : Prop :=
  cacheLookup c (cacheKey d i) = none ∨
    cacheLookup c (cacheKey d i) = some (pureSegmentName d i)

/-- Global sanity of the name cache: every binding is the computed path for
the key it is stored under.  Holds for the empty cache and is preserved by
every segmentFileName call. -/
def CacheGood (c : Cache) : Prop :=
  ∀ e ∈ c, ∃ d i, e.1 = cacheKey d i ∧ e.2 = pureSegmentName d i

/-! ## Segment locating (findLastSegemtIndex, main.go lines 60-83) -/

/-- One entry of os.ReadDir: a name and whether it is a subdirectory. -/
structure DirEntry where
  name : String
  isDir : Bool
deriving Repr, DecidableEq

/-- The filter and parse applied to one directory entry by the loop of
findLastSegemtIndex (main.go lines 67-77): skip subdirectories and names
without the segment prefix, then Atoi the name with the prefix trimmed from
the front and one ".log" trimmed from the end. -/
def codeSegIndex? (e : DirEntry) : Option Int :=
  if e.isDir || !(goHasPre e.name segmentPrefix) then none
  else goAtoi (goTrimSuf (goTrimPre e.name segmentPrefix) ".log")

/-- Loop body of findLastSegemtIndex: keep the larger index. -/
def locStep (maxIndex : Int) (entry : DirEntry) : Int :=
  match codeSegIndex? entry with
  | some index => if index > maxIndex then index else maxIndex
  | none => maxIndex

/-- Embedding of findLastSegemtIndex (main.go lines 60-83).  The directory
listing is `none` when os.ReadDir fails (missing or unreadable directory);
the function then returns (1, nil).  Otherwise it folds the loop body over
the entries starting from 0 and maps a final 0 to 1.  The second component
is the returned error, which is nil on every path. -/
def findLastSegemtIndex (listing : Option (List DirEntry)) : Int × Option Unit :=
  match listing with
  | none => (1, none)
  | some entries =>
      let maxIndex := entries.foldl locStep 0
      if maxIndex = 0 then (1, none) else (maxIndex, none)

/-! ## Files, the engine state and log entries -/

/-- One on-disk file: the content the OS file holds (what Stat sees, i.e.
everything flushed out of the bufio buffer) and the durable content
(everything fsynced). -/
structure FileRec where
  osContent : String
  diskContent : String
deriving Repr, DecidableEq

/-- The file system: an association list from path to file. -/
abbrev FileSys := List (String × FileRec)

def fsGet : FileSys → String → Option FileRec
  | [], _ => none
  | (q, r) :: t, p => if q = p then some r else fsGet t p

def fsSet : FileSys → String → FileRec → FileSys
  | [], p, r => [(p, r)]
  | (q, r0) :: t, p, r => if q = p then (p, r) :: t else (q, r0) :: fsSet t p r

/-- Embedding of struct WAL (main.go lines 22-30).  currentSegment (an
*os.File) is represented by the path of the open file; the bufio.Writer by
its pending bytes; the json.Encoder carries no state of its own.  The file
system and the global name cache are carried in the state so that the
engine's effects are explicit.  The mutex is not represented: every theorem
speaks about the serialized execution the lock enforces. -/
structure WAL where
  directory : String
  currentSegmentPath : String
  currentSegmentIndex : Int
  offset : Int
  buffer : String
  files : FileSys
  cache : Cache
deriving Repr, DecidableEq

/-- Embedding of struct LogEntry (main.go lines 32-36).  The payload is
opaque to the engine and is modelled as its pre-serialized JSON text. -/
structure LogEntry where
  offset : Int
  topic : String
  payload : String
deriving Repr, DecidableEq

/-- JSON string escaping as performed by encoding/json with the default
HTML escaping (quotes, backslash, control characters, and the
HTML-sensitive characters and separators). -/
def jsonEscapeChar (c : Char) : String :=
  if c = '"' then "\\\""
  else if c = '\\' then "\\\\"
  else if c = '\n' then "\\n"
  else if c = '\r' then "\\r"
  else if c = '\t' then "\\t"
  else if c.toNat < 32 then
    "\\u00" ++ String.singleton (Nat.digitChar (c.toNat / 16)) ++
      String.singleton (Nat.digitChar (c.toNat % 16))
  else if c = '<' then "\\u003c"
  else if c = '>' then "\\u003e"
  else if c = '&' then "\\u0026"
  else if c.toNat = 0x2028 then "\\u2028"
  else if c.toNat = 0x2029 then "\\u2029"
  else String.singleton c

def jsonQuote (s : String) : String :=
  "\"" ++ String.join (s.data.map jsonEscapeChar) ++ "\""

/-- The bytes json.Encoder.Encode(entry) writes into the buffered writer:
the JSON object in struct-field order with the json tags of LogEntry,
followed by a newline.  The opaque payload is inserted as its
pre-serialized text. -/
def encodeLogEntry (e : LogEntry) : String :=
  "\x7b\"offset\":" ++ toString e.offset ++ ",\"topic\":" ++ jsonQuote e.topic ++
    ",\"payload\":" ++ e.payload ++ "\x7d\n"

/-! ## I/O outcomes and errors -/

/-- Outcome of each fallible I/O step during one engine call: `true` means
the step succeeds if reached.  Go reports these as errors at run time; here
they are an explicit input so both paths are functions of it. -/
structure IoEnv where
  encodeOk : Bool
  flushOk : Bool
  syncOk : Bool
  statOk : Bool
  closeOk : Bool
  openOk : Bool
deriving Repr, DecidableEq

/-- All I/O succeeds. -/
def ioOK : IoEnv := ⟨true, true, true, true, true, true⟩

/-- The distinguishable errors the engine produces (each corresponds to a
distinct fmt.Errorf message in the source).  `flushFailed` is the wrapping
"failed to flush log entry: %v" of WriteLog line 174, `rotateFailed` the
wrapping "failed to rotate segment: %v" of line 185. -/
inductive WalError where
  | encodeError
  | flushError
  | syncError
  | statError
  | closeError
  | openError
  | flushFailed (e : WalError)
  | rotateFailed (e : WalError)
deriving Repr, DecidableEq

/-! ## The engine operations -/

/-- Content of the file the engine currently has open (a closed file or a
missing path reads as empty, which never happens on reachable states). -/
def fileAt (w : WAL) (path : String) : FileRec :=
  (fsGet w.files path).getD ⟨"", ""⟩

/-- Embedding of (w *WAL) FlushE (main.go lines 129-137): flush the bufio
buffer into the OS file, then fsync it (durable content becomes the OS
content).  On a flush failure nothing has moved; on a sync failure the
bytes are in the OS file but not durable.  The mutated receiver is returned
together with the error, as in Go. -/
def FlushE (w : WAL) (io : IoEnv) : WAL × Option WalError :=
  if io.flushOk = false then (w, some .flushError)
  else
    let fr := fileAt w w.currentSegmentPath
    let w1 : WAL := { w with
      files := fsSet w.files w.currentSegmentPath ⟨fr.osContent ++ w.buffer, fr.diskContent⟩,
      buffer := "" }
    if io.syncOk = false then (w1, some .syncError)
    else
      let fr1 := fileAt w1 w.currentSegmentPath
      ({ w1 with
         files := fsSet w1.files w.currentSegmentPath ⟨fr1.osContent, fr1.osContent⟩ }, none)

/-- Embedding of (w *WAL) rotateSegment (main.go lines 139-159): flush and
sync, close the current file, increment the segment index, name and
open/create the next segment (O_CREATE keeps an existing file's content and
otherwise creates it empty; O_APPEND makes later writes append), point the
state at it with a fresh buffer, and finally advance the offset counter by
one more (line 157). -/
def rotateSegment (w : WAL) (io : IoEnv) : WAL × Option WalError :=
  match FlushE w io with
  | (w1, some e) => (w1, some e)
  | (w1, none) =>
      if io.closeOk = false then (w1, some .closeError)
      else
        let w2 : WAL := { w1 with currentSegmentIndex := w1.currentSegmentIndex + 1 }
        let nc := segmentFileName w2.cache w2.directory w2.currentSegmentIndex
        let w3 : WAL := { w2 with cache := nc.2 }
        if io.openOk = false then (w3, some .openError)
        else
          let files :=
            match fsGet w3.files nc.1 with
            | some _ => w3.files
            | none => fsSet w3.files nc.1 ⟨"", ""⟩
          ({ w3 with
             currentSegmentPath := nc.1,
             files := files,
             buffer := "",
             offset := w3.offset + 1 }, none)

/-- Embedding of (w *WAL) WriteLog (main.go lines 161-189): build the entry
carrying the current offset counter, encode it into the buffered writer,
flush and sync (wrapping a failure), stat the current segment, advance the
offset by one, and rotate (wrapping a failure) when the segment size
reached maxSegmentSize.  The mutated receiver is returned with the error. -/
def WriteLog (w : WAL) (topic payload : String) (io : IoEnv) : WAL × Option WalError :=
  let entry : LogEntry := ⟨w.offset, topic, payload⟩
  if io.encodeOk = false then (w, some .encodeError)
  else
    let w1 : WAL := { w with buffer := w.buffer ++ encodeLogEntry entry }
    match FlushE w1 io with
    | (w2, some e) => (w2, some (.flushFailed e))
    | (w2, none) =>
        if io.statOk = false then (w2, some .statError)
        else
          let currentFileSize : Int := ((fileAt w2 w2.currentSegmentPath).osContent.utf8ByteSize : Int)
          let w3 : WAL := { w2 with offset := w2.offset + 1 }
          if currentFileSize ≥ maxSegmentSize then
            match rotateSegment w3 io with
            | (w4, some e) => (w4, some (.rotateFailed e))
            | (w4, none) => (w4, none)
          else (w3, none)

/-- Embedding of calculateOffset (main.go lines 87-93): the byte size the
file's Stat reports. -/
def calculateOffset (fr : FileRec) : Int :=
  (fr.osContent.utf8ByteSize : Int)

/-- Embedding of the success path of newWriteAheadLOG (main.go lines
95-127): locate the last segment index in the (post-MkdirAll) directory
listing, name and open/create that segment, derive the starting offset as
1 + the opened file's byte size, and set up the state with an empty
buffer.  The error paths of the source construct no engine and are not
represented.  The global name cache starts as given (empty at process
start). -/
def newWriteAheadLOG (listing : Option (List DirEntry)) (files : FileSys) (c : Cache) : WAL :=
  let segementIndex := (findLastSegemtIndex listing).1
  let nc := segmentFileName c walDir segementIndex
  let opened :=
    match fsGet files nc.1 with
    | some fr => (files, fr)
    | none => (fsSet files nc.1 ⟨"", ""⟩, (⟨"", ""⟩ : FileRec))
  { directory := walDir
    currentSegmentPath := nc.1
    currentSegmentIndex := segementIndex
    offset := 1 + calculateOffset opened.2
    buffer := ""
    files := opened.1
    cache := nc.2 }

/-! ## The HTTP ingress (ServerHTTP and handleWrite, main.go lines 205-252) -/

/-- One inbound request: its method, the value of the topic query parameter
("" when absent, as Go's Query().Get reports), and the body after Go's
json.Decoder.Decode into map[string]any — `some p` when the body decodes as
a JSON object whose serialized text is `p`, `none` when decoding fails. -/
structure HttpRequest where
  method : String
  topicParam : String
  body : Option String
deriving Repr, DecidableEq

/-- The response the handler writes: either http.Error with a status and
message, or the 201 JSON document of a successful write (its fields in the
order of main.go lines 244-251; fileSize carries the current segment's
path, as in the source). -/
inductive HttpResponse where
  | error (status : Nat) (msg : String)
  | created (offset : Int) (segment : Int) (topic : String) (payload : String)
      (message : String) (fileSize : String)
deriving Repr, DecidableEq

/-- Embedding of (w *WAL) handleWrite (main.go lines 222-252).  After a
successful WriteLog the handler re-reads w.offset and w.currentSegmentIndex
from the engine — the values as they are after the call — and echoes them. -/
def handleWrite (w : WAL) (req : HttpRequest) (io : IoEnv) : WAL × HttpResponse :=
  match req.body with
  | none => (w, .error 400 "Invalid payload")
  | some payload =>
      let topic := if req.topicParam = "" then "default" else req.topicParam
      match WriteLog w topic payload io with
      | (w1, some _) => (w1, .error 500 "Failed to write log")
      | (w1, none) =>
          (w1, .created w1.offset w1.currentSegmentIndex topic payload
            "Log entry written successfully" w1.currentSegmentPath)

/-- Embedding of (w *WAL) ServerHTTP (main.go lines 205-212): POST goes to
handleWrite, anything else gets 405. -/
def ServerHTTP (w : WAL) (req : HttpRequest) (io : IoEnv) : WAL × HttpResponse :=
  if req.method = "POST" then handleWrite w req io
  else (w, .error 405 "Method not allowed")

/-! ## Concrete states used by witnesses and counterexamples -/

/-- The engine as constructed by Open against an empty wal_data directory
at process start (empty listing, no files, empty cache). -/
def walFresh : WAL := newWriteAheadLOG (some []) [] []

/-- A payload large enough that a single record crosses maxSegmentSize. -/
def bigPayload : String := ⟨'"' :: List.replicate 600 'a' ++ ['"']⟩

/-- The OS (and, once synced, durable) content of the current segment after
one write of the entry ⟨w.offset, t, p⟩: the flushed content so far, then
the pending buffer, then the new record. -/
def appendedContent (w : WAL) (t p : String) : String :=
  (fileAt w w.currentSegmentPath).osContent ++ (w.buffer ++ encodeLogEntry ⟨w.offset, t, p⟩)

/-- The state after a flush/sync boundary: the bufio buffer is empty and the
current segment's file holds the given OS and durable contents. -/
def flushTo (w : WAL) (os disk : String) : WAL :=
  { w with buffer := "", files := fsSet w.files w.currentSegmentPath ⟨os, disk⟩ }

/-- The state with the offset counter advanced by one (WriteLog line 182). -/
def advOffset (w : WAL) : WAL :=
  { w with offset := w.offset + 1 }

/-- Decimal digits without padding: nonempty, all digits, no leading zero
unless the number is exactly "0". -/
def decimalNoPad (l : List Char) : Option Nat :=
  if l ≠ [] ∧ l.all Char.isDigit ∧ (l.head? ≠ some '0' ∨ l = ['0']) then some (digitsVal l)
  else none

/-- Modelled from the spec: the on-disk segment naming pattern of spec §6 —
"a fixed prefix followed by a positive integer index and a fixed suffix (no
zero-padding)".  Returns the index when the whole name is exactly
"wal_<positive decimal>.log", and `none` otherwise. -/
def specSegIndex? (name : String) : Option Nat :=
  let l := name.data
  if segmentPrefix.data.isPrefixOf l ∧ ".log".data.isSuffixOf (l.drop 4) ∧ 4 ≤ (l.drop 4).length then
    match decimalNoPad ((l.drop 4).take ((l.drop 4).length - 4)) with
    | some n => if 1 ≤ n then some n else none
    | none => none
  else none

/-- Modelled from the spec: the value claim C4 prescribes for the segment
locator — the numerically highest index among files matching the segment
naming pattern, ignoring subdirectories and non-matching names, and 1 when
no file matches. -/
def specLastSegIndex (entries : List DirEntry) : Nat :=
  let m := (entries.filterMap (fun e => if e.isDir then none else specSegIndex? e.name)).foldl max 0
  if m = 0 then 1 else m

/-- A well-formed POST carrying topic "orders" and the object payload of the
spec's worked example. -/
def reqOrders : HttpRequest := ⟨"POST", "orders", some "\x7b\"id\":1\x7d"⟩

/-- A POST whose (valid, object) body is large enough to trigger rotation. -/
def reqBig : HttpRequest := ⟨"POST", "orders", some bigPayload⟩

/-! ## File-system lemmas -/

theorem fsGet_fsSet_self (fs : FileSys) (p : String) (r : FileRec) :
    fsGet (fsSet fs p r) p = some r := by
  induction fs with
  | nil => simp [fsGet, fsSet]
  | cons h t ih =>
      obtain ⟨q, r0⟩ := h
      by_cases hq : q = p <;> simp [fsGet, fsSet, hq, ih]

theorem fsGet_fsSet_ne (fs : FileSys) (p : String) (r : FileRec) (q : String) (h : q ≠ p) :
    fsGet (fsSet fs p r) q = fsGet fs q := by
  induction fs with
  | nil => simp [fsGet, fsSet, Ne.symm h]
  | cons hd t ih =>
      obtain ⟨k, r0⟩ := hd
      by_cases hk : k = p
      · subst hk
        simp [fsGet, fsSet, Ne.symm h]
      · simp [fsGet, fsSet, hk, ih]

theorem fsSet_fsSet (fs : FileSys) (p : String) (a b : FileRec) :
    fsSet (fsSet fs p a) p b = fsSet fs p b := by
  induction fs with
  | nil => simp [fsSet]
  | cons hd t ih =>
      obtain ⟨k, r0⟩ := hd
      by_cases hk : k = p <;> simp [fsSet, hk, ih]

/-! ## Characterizations of the engine steps -/

theorem FlushE_flushErr (w : WAL) (io : IoEnv) (hf : io.flushOk = false) :
    FlushE w io = (w, some .flushError) := by
  simp [FlushE, hf]

theorem FlushE_syncErr (w : WAL) (io : IoEnv) (hf : io.flushOk = true) (hs : io.syncOk = false) :
    FlushE w io = (flushTo w ((fileAt w w.currentSegmentPath).osContent ++ w.buffer) (fileAt w w.currentSegmentPath).diskContent, some .syncError) := by
  simp [FlushE, flushTo, hf, hs]

theorem FlushE_ok (w : WAL) (io : IoEnv) (hf : io.flushOk = true) (hs : io.syncOk = true) :
    FlushE w io = (flushTo w ((fileAt w w.currentSegmentPath).osContent ++ w.buffer) ((fileAt w w.currentSegmentPath).osContent ++ w.buffer), none) := by
  simp [FlushE, flushTo, hf, hs, fileAt, fsGet_fsSet_self, fsSet_fsSet]

theorem rotateSegment_ok (w : WAL) (io : IoEnv) (hf : io.flushOk = true)
    (hs : io.syncOk = true) (hc : io.closeOk = true) (ho : io.openOk = true) :
    (rotateSegment w io).2 = none ∧
    (rotateSegment w io).1.offset = w.offset + 1 ∧
    (rotateSegment w io).1.currentSegmentIndex = w.currentSegmentIndex + 1 ∧
    (rotateSegment w io).1.buffer = "" ∧
    (rotateSegment w io).1.directory = w.directory ∧
    (rotateSegment w io).1.cache = (segmentFileName w.cache w.directory (w.currentSegmentIndex + 1)).2 ∧
    (rotateSegment w io).1.currentSegmentPath = (segmentFileName w.cache w.directory (w.currentSegmentIndex + 1)).1 ∧
    fsGet (rotateSegment w io).1.files w.currentSegmentPath = some ⟨(fileAt w w.currentSegmentPath).osContent ++ w.buffer, (fileAt w w.currentSegmentPath).osContent ++ w.buffer⟩ := by
  have hF := FlushE_ok w io hf hs
  rcases hg : fsGet (fsSet w.files w.currentSegmentPath ⟨(fileAt w w.currentSegmentPath).osContent ++ w.buffer, (fileAt w w.currentSegmentPath).osContent ++ w.buffer⟩) (segmentFileName w.cache w.directory (w.currentSegmentIndex + 1)).1 with _ | fr
  · have hne : (segmentFileName w.cache w.directory (w.currentSegmentIndex + 1)).1 ≠ w.currentSegmentPath := by
      intro e
      rw [e, fsGet_fsSet_self] at hg
      cases hg
    simp [rotateSegment, hF, hc, ho, flushTo, hg, fsGet_fsSet_self,
      fsGet_fsSet_ne _ _ _ _ (Ne.symm hne)]
  · simp [rotateSegment, hF, hc, ho, flushTo, hg, fsGet_fsSet_self]

theorem WriteLog_encodeErr (w : WAL) (t p : String) (io : IoEnv) (he : io.encodeOk = false) :
    WriteLog w t p io = (w, some .encodeError) := by
  simp [WriteLog, he]

theorem WriteLog_flushErr (w : WAL) (t p : String) (io : IoEnv)
    (he : io.encodeOk = true) (hf : io.flushOk = false) :
    WriteLog w t p io = ({ w with buffer := w.buffer ++ encodeLogEntry ⟨w.offset, t, p⟩ }, some (.flushFailed .flushError)) := by
  simp [WriteLog, he, FlushE_flushErr _ _ hf]

theorem WriteLog_syncErr (w : WAL) (t p : String) (io : IoEnv)
    (he : io.encodeOk = true) (hf : io.flushOk = true) (hs : io.syncOk = false) :
    WriteLog w t p io = (flushTo w (appendedContent w t p) (fileAt w w.currentSegmentPath).diskContent, some (.flushFailed .syncError)) := by
  simp [WriteLog, he, FlushE_syncErr _ _ hf hs, flushTo, fileAt, appendedContent]

theorem WriteLog_statErr (w : WAL) (t p : String) (io : IoEnv)
    (he : io.encodeOk = true) (hf : io.flushOk = true) (hs : io.syncOk = true)
    (hst : io.statOk = false) :
    WriteLog w t p io = (flushTo w (appendedContent w t p) (appendedContent w t p), some .statError) := by
  simp [WriteLog, he, FlushE_ok _ _ hf hs, flushTo, fileAt, appendedContent, hst]

theorem WriteLog_ok_small (w : WAL) (t p : String) (io : IoEnv)
    (he : io.encodeOk = true) (hf : io.flushOk = true) (hs : io.syncOk = true)
    (hst : io.statOk = true)
    (hsize : ¬ maxSegmentSize ≤ ((appendedContent w t p).utf8ByteSize : Int)) :
    WriteLog w t p io = (advOffset (flushTo w (appendedContent w t p) (appendedContent w t p)), none) := by
  have hsize' : ¬ maxSegmentSize ≤ ((((fsGet w.files w.currentSegmentPath).getD ⟨"", ""⟩).osContent ++ (w.buffer ++ encodeLogEntry ⟨w.offset, t, p⟩)).utf8ByteSize : Int) := by
    simpa [appendedContent, fileAt] using hsize
  simp [WriteLog, he, FlushE_ok _ _ hf hs, hst, flushTo, advOffset, fileAt,
    fsGet_fsSet_self, appendedContent, ge_iff_le, hsize']

theorem rotateSegment_closeErr (w : WAL) (io : IoEnv) (hf : io.flushOk = true)
    (hs : io.syncOk = true) (hc : io.closeOk = false) :
    rotateSegment w io = (flushTo w ((fileAt w w.currentSegmentPath).osContent ++ w.buffer) ((fileAt w w.currentSegmentPath).osContent ++ w.buffer), some .closeError) := by
  simp [rotateSegment, FlushE_ok _ _ hf hs, hc]

theorem rotateSegment_openErr (w : WAL) (io : IoEnv) (hf : io.flushOk = true)
    (hs : io.syncOk = true) (hc : io.closeOk = true) (ho : io.openOk = false) :
    (rotateSegment w io).2 = some .openError ∧
    (rotateSegment w io).1.offset = w.offset ∧
    (rotateSegment w io).1.currentSegmentIndex = w.currentSegmentIndex + 1 := by
  simp [rotateSegment, FlushE_ok _ _ hf hs, hc, ho, flushTo]

theorem WriteLog_rot_eq (w : WAL) (t p : String) (io : IoEnv)
    (he : io.encodeOk = true) (hf : io.flushOk = true) (hs : io.syncOk = true)
    (hst : io.statOk = true)
    (hsize : maxSegmentSize ≤ ((appendedContent w t p).utf8ByteSize : Int)) :
    WriteLog w t p io =
      (match rotateSegment (advOffset (flushTo w (appendedContent w t p) (appendedContent w t p))) io with
       | (w4, some e) => (w4, some (.rotateFailed e))
       | (w4, none) => (w4, none)) := by
  have hsize' : maxSegmentSize ≤ ((((fsGet w.files w.currentSegmentPath).getD ⟨"", ""⟩).osContent ++ (w.buffer ++ encodeLogEntry ⟨w.offset, t, p⟩)).utf8ByteSize : Int) := by
    simpa [appendedContent, fileAt] using hsize
  simp [WriteLog, he, FlushE_ok _ _ hf hs, hst, flushTo, advOffset, fileAt,
    fsGet_fsSet_self, appendedContent, ge_iff_le, hsize']

theorem WriteLog_closeErr (w : WAL) (t p : String) (io : IoEnv)
    (he : io.encodeOk = true) (hf : io.flushOk = true) (hs : io.syncOk = true)
    (hst : io.statOk = true) (hc : io.closeOk = false)
    (hsize : maxSegmentSize ≤ ((appendedContent w t p).utf8ByteSize : Int)) :
    (WriteLog w t p io).2 = some (.rotateFailed .closeError) := by
  rw [WriteLog_rot_eq w t p io he hf hs hst hsize,
    rotateSegment_closeErr _ _ hf hs hc]

theorem WriteLog_openErr (w : WAL) (t p : String) (io : IoEnv)
    (he : io.encodeOk = true) (hf : io.flushOk = true) (hs : io.syncOk = true)
    (hst : io.statOk = true) (hc : io.closeOk = true) (ho : io.openOk = false)
    (hsize : maxSegmentSize ≤ ((appendedContent w t p).utf8ByteSize : Int)) :
    (WriteLog w t p io).2 = some (.rotateFailed .openError) := by
  rw [WriteLog_rot_eq w t p io he hf hs hst hsize]
  obtain ⟨h1, h2, h3⟩ := rotateSegment_openErr (advOffset (flushTo w (appendedContent w t p) (appendedContent w t p))) io hf hs hc ho
  rcases hr : rotateSegment (advOffset (flushTo w (appendedContent w t p) (appendedContent w t p))) io with ⟨w4, e4⟩
  rw [hr] at h1
  simp at h1
  simp [h1]

theorem WriteLog_ok_rot (w : WAL) (t p : String) (io : IoEnv)
    (he : io.encodeOk = true) (hf : io.flushOk = true) (hs : io.syncOk = true)
    (hst : io.statOk = true) (hc : io.closeOk = true) (ho : io.openOk = true)
    (hsize : maxSegmentSize ≤ ((appendedContent w t p).utf8ByteSize : Int)) :
    (WriteLog w t p io).2 = none ∧
    (WriteLog w t p io).1.offset = w.offset + 2 ∧
    (WriteLog w t p io).1.currentSegmentIndex = w.currentSegmentIndex + 1 ∧
    (WriteLog w t p io).1.buffer = "" ∧
    (WriteLog w t p io).1.directory = w.directory ∧
    (WriteLog w t p io).1.currentSegmentPath = (segmentFileName w.cache w.directory (w.currentSegmentIndex + 1)).1 ∧
    fsGet (WriteLog w t p io).1.files w.currentSegmentPath = some ⟨appendedContent w t p, appendedContent w t p⟩ := by
  rw [WriteLog_rot_eq w t p io he hf hs hst hsize]
  obtain ⟨h1, h2, h3, h4, h5, h6, h7, h8⟩ := rotateSegment_ok (advOffset (flushTo w (appendedContent w t p) (appendedContent w t p))) io hf hs hc ho
  rcases hr : rotateSegment (advOffset (flushTo w (appendedContent w t p) (appendedContent w t p))) io with ⟨w4, e4⟩
  rw [hr] at h1 h2 h3 h4 h5 h6 h7 h8
  simp only [flushTo, advOffset, fileAt, fsGet_fsSet_self, String.append_empty,
    Option.getD_some] at h1 h2 h3 h4 h5 h6 h7 h8
  have h1' : e4 = none := h1
  subst h1'
  refine ⟨rfl, ?_, ?_, ?_, ?_, ?_, ?_⟩ <;>
    simp_all [flushTo, advOffset, fileAt, fsGet_fsSet_self]
  · omega

theorem WriteLog_ok_flags (w : WAL) (t p : String) (io : IoEnv)
    (h : (WriteLog w t p io).2 = none) :
    io.encodeOk = true ∧ io.flushOk = true ∧ io.syncOk = true ∧ io.statOk = true := by
  cases he : io.encodeOk
  · simp [WriteLog_encodeErr w t p io he] at h
  · cases hf : io.flushOk
    · simp [WriteLog_flushErr w t p io he hf] at h
    · cases hs : io.syncOk
      · simp [WriteLog_syncErr w t p io he hf hs] at h
      · cases hst : io.statOk
        · simp [WriteLog_statErr w t p io he hf hs hst] at h
        · exact ⟨rfl, rfl, rfl, rfl⟩

theorem WriteLog_ok_rotFlags (w : WAL) (t p : String) (io : IoEnv)
    (h : (WriteLog w t p io).2 = none)
    (hsize : maxSegmentSize ≤ ((appendedContent w t p).utf8ByteSize : Int)) :
    io.closeOk = true ∧ io.openOk = true := by
  obtain ⟨he, hf, hs, hst⟩ := WriteLog_ok_flags w t p io h
  cases hc : io.closeOk
  · simp [WriteLog_closeErr w t p io he hf hs hst hc hsize] at h
  · cases ho : io.openOk
    · simp [WriteLog_openErr w t p io he hf hs hst hc ho hsize] at h
    · exact ⟨rfl, rfl⟩

/-- Everything a successful WriteLog guarantees, split on whether the
post-write size check triggered rotation.  In both cases the record is
flushed and fsynced into the file the engine had open when the call
started. -/
theorem WriteLog_ok_facts (w : WAL) (t p : String) (io : IoEnv)
    (h : (WriteLog w t p io).2 = none) :
    fsGet (WriteLog w t p io).1.files w.currentSegmentPath = some ⟨appendedContent w t p, appendedContent w t p⟩ ∧
    ((¬ maxSegmentSize ≤ ((appendedContent w t p).utf8ByteSize : Int) ∧
        WriteLog w t p io = (advOffset (flushTo w (appendedContent w t p) (appendedContent w t p)), none)) ∨
      (maxSegmentSize ≤ ((appendedContent w t p).utf8ByteSize : Int) ∧
        (WriteLog w t p io).1.offset = w.offset + 2 ∧
        (WriteLog w t p io).1.currentSegmentIndex = w.currentSegmentIndex + 1 ∧
        (WriteLog w t p io).1.buffer = "" ∧
        (WriteLog w t p io).1.currentSegmentPath = (segmentFileName w.cache w.directory (w.currentSegmentIndex + 1)).1)) := by
  obtain ⟨he, hf, hs, hst⟩ := WriteLog_ok_flags w t p io h
  by_cases hsize : maxSegmentSize ≤ ((appendedContent w t p).utf8ByteSize : Int)
  · obtain ⟨hc, ho⟩ := WriteLog_ok_rotFlags w t p io h hsize
    obtain ⟨h1, h2, h3, h4, h5, h6, h7⟩ := WriteLog_ok_rot w t p io he hf hs hst hc ho hsize
    exact ⟨h7, Or.inr ⟨hsize, h2, h3, h4, h6⟩⟩
  · rw [WriteLog_ok_small w t p io he hf hs hst hsize]
    refine ⟨?_, Or.inl ⟨hsize, rfl⟩⟩
    simp [advOffset, flushTo, fsGet_fsSet_self]

/-- C1 counterexample: against a fresh engine (offset counter 1) a single
successful Append whose record crosses the size threshold triggers
rotation and leaves the counter at 3, not 2 — the counter advanced by 2 in
one successful call, so the next entry written carries offset 3 while this
one carried offset 1, a gap at 2. -/
theorem C1_counterexample :
    (WriteLog walFresh "t" bigPayload ioOK).2 = none ∧
    walFresh.offset = 1 ∧
    (WriteLog walFresh "t" bigPayload ioOK).1.offset = 3 ∧
    (WriteLog walFresh "t" bigPayload ioOK).1.currentSegmentIndex = walFresh.currentSegmentIndex + 1 := by
  decide

/-- C1 (amended): on every successful Append the offset counter strictly
increases, by exactly 1 when the call did not trigger a rotation, and by
exactly 2 when it did (rotateSegment increments the counter a second time,
so offsets of successive entries then have a gap); the counter never
decreases and no offset is reused. -/
theorem C1_offset_advance (w : WAL) (t p : String) (io : IoEnv)
    (h : (WriteLog w t p io).2 = none) :
    w.offset < (WriteLog w t p io).1.offset ∧
    ((WriteLog w t p io).1.currentSegmentIndex = w.currentSegmentIndex →
      (WriteLog w t p io).1.offset = w.offset + 1) ∧
    ((WriteLog w t p io).1.currentSegmentIndex ≠ w.currentSegmentIndex →
      (WriteLog w t p io).1.currentSegmentIndex = w.currentSegmentIndex + 1 ∧
      (WriteLog w t p io).1.offset = w.offset + 2) := by
  obtain ⟨-, hcases⟩ := WriteLog_ok_facts w t p io h
  rcases hcases with ⟨-, heq⟩ | ⟨-, h2, h3, -, -⟩
  · rw [heq]
    refine ⟨?_, fun _ => ?_, fun hne => absurd ?_ hne⟩ <;>
      simp [advOffset, flushTo]
  · refine ⟨by omega, fun hidx => ?_, fun _ => ⟨h3, h2⟩⟩
    rw [h3] at hidx
    omega

/-- C1 witness: the amended theorem applied to a concrete successful
Append on the fresh engine. -/
theorem C1_offset_advance_witness :
    walFresh.offset < (WriteLog walFresh "orders" "\x7b\"id\":1\x7d" ioOK).1.offset :=
  (C1_offset_advance walFresh "orders" "\x7b\"id\":1\x7d" ioOK (by decide)).1

/-- C2 counterexample: on a fresh engine the first successful Append writes
a record carrying offset 1, but the handler's response reports offset 2
(the post-increment counter), not the offset the entry carries and not the
offset=1 the claim's worked example prescribes. -/
theorem C2_counterexample :
    (handleWrite walFresh reqOrders ioOK).2 =
      .created 2 1 "orders" "\x7b\"id\":1\x7d" "Log entry written successfully" "wal_data/wal_1.log" ∧
    fsGet (handleWrite walFresh reqOrders ioOK).1.files "wal_data/wal_1.log" =
      some ⟨encodeLogEntry ⟨1, "orders", "\x7b\"id\":1\x7d"⟩, encodeLogEntry ⟨1, "orders", "\x7b\"id\":1\x7d"⟩⟩ := by
  decide

/-- C2 (amended): a successful Append writes a record carrying the
pre-increment counter value, but the value returned to the caller in the
response's offset field is the engine's counter as it stands after the
whole call — strictly greater than the offset the entry carries (by 1
without rotation, by 2 with); against an empty directory the first Append
is answered with offset 2, not 1. -/
theorem C2_response_offset (w : WAL) (req : HttpRequest) (p t : String) (io : IoEnv)
    (hb : req.body = some p)
    (ht : t = if req.topicParam = "" then "default" else req.topicParam)
    (h : (WriteLog w t p io).2 = none) :
    handleWrite w req io =
      ((WriteLog w t p io).1,
        .created (WriteLog w t p io).1.offset (WriteLog w t p io).1.currentSegmentIndex t p
          "Log entry written successfully" (WriteLog w t p io).1.currentSegmentPath) ∧
    fsGet (WriteLog w t p io).1.files w.currentSegmentPath =
      some ⟨appendedContent w t p, appendedContent w t p⟩ ∧
    w.offset < (WriteLog w t p io).1.offset := by
  obtain ⟨hfs, hcases⟩ := WriteLog_ok_facts w t p io h
  have hlt : w.offset < (WriteLog w t p io).1.offset := by
    rcases hcases with ⟨-, heq⟩ | ⟨-, h2, -⟩
    · rw [heq]
      simp [advOffset, flushTo]
    · omega
  refine ⟨?_, hfs, hlt⟩
  have ht' : (if req.topicParam = "" then "default" else req.topicParam) = t := ht.symm
  rcases hW : WriteLog w t p io with ⟨w1, e1⟩
  rw [hW] at h
  have h' : e1 = none := h
  subst h'
  simp only [handleWrite, hb, ht', hW]

/-- C2 witness: the amended theorem instantiated at the fresh engine and
the spec's worked example; the first Append is answered with offset 2. -/
theorem C2_response_offset_witness :
    (handleWrite walFresh reqOrders ioOK).2 =
      .created 2 1 "orders" "\x7b\"id\":1\x7d" "Log entry written successfully" "wal_data/wal_1.log" := by
  have h := (C2_response_offset walFresh reqOrders "\x7b\"id\":1\x7d" "orders" ioOK rfl (by decide) (by decide)).1
  rw [h]
  decide

/-- C3 counterexample: an Append that triggers rotation writes its record
into segment file 1, but the response reports segment 2 (and the rotated
file is created empty), so the returned index is not the segment the
record was written to. -/
theorem C3_counterexample :
    (handleWrite walFresh reqBig ioOK).2 =
      .created 3 2 "orders" bigPayload "Log entry written successfully" "wal_data/wal_2.log" ∧
    fsGet (handleWrite walFresh reqBig ioOK).1.files "wal_data/wal_1.log" =
      some ⟨encodeLogEntry ⟨1, "orders", bigPayload⟩, encodeLogEntry ⟨1, "orders", bigPayload⟩⟩ ∧
    fsGet (handleWrite walFresh reqBig ioOK).1.files "wal_data/wal_2.log" = some ⟨"", ""⟩ := by
  decide

/-- C3 (amended): the record of a successful Append is always flushed and
fsynced into the segment file that was current when the call began, but
the response carries the engine's segment index as it stands after the
call: the pre-rotation index when no rotation was triggered, and the
pre-rotation index + 1 when the post-write size check triggered one. -/
theorem C3_response_segment (w : WAL) (req : HttpRequest) (p t : String) (io : IoEnv)
    (hb : req.body = some p)
    (ht : t = if req.topicParam = "" then "default" else req.topicParam)
    (h : (WriteLog w t p io).2 = none) :
    handleWrite w req io =
      ((WriteLog w t p io).1,
        .created (WriteLog w t p io).1.offset (WriteLog w t p io).1.currentSegmentIndex t p
          "Log entry written successfully" (WriteLog w t p io).1.currentSegmentPath) ∧
    fsGet (WriteLog w t p io).1.files w.currentSegmentPath =
      some ⟨appendedContent w t p, appendedContent w t p⟩ ∧
    (maxSegmentSize ≤ ((appendedContent w t p).utf8ByteSize : Int) →
      (WriteLog w t p io).1.currentSegmentIndex = w.currentSegmentIndex + 1) ∧
    (¬ maxSegmentSize ≤ ((appendedContent w t p).utf8ByteSize : Int) →
      (WriteLog w t p io).1.currentSegmentIndex = w.currentSegmentIndex) := by
  obtain ⟨hfs, hcases⟩ := WriteLog_ok_facts w t p io h
  have hidx : (maxSegmentSize ≤ ((appendedContent w t p).utf8ByteSize : Int) →
      (WriteLog w t p io).1.currentSegmentIndex = w.currentSegmentIndex + 1) ∧
      (¬ maxSegmentSize ≤ ((appendedContent w t p).utf8ByteSize : Int) →
        (WriteLog w t p io).1.currentSegmentIndex = w.currentSegmentIndex) := by
    rcases hcases with ⟨hns, heq⟩ | ⟨hsz, -, h3, -⟩
    · refine ⟨fun hsz => absurd hsz hns, fun _ => ?_⟩
      rw [heq]
      simp [advOffset, flushTo]
    · exact ⟨fun _ => h3, fun hns => absurd hsz hns⟩
  refine ⟨?_, hfs, hidx⟩
  have ht' : (if req.topicParam = "" then "default" else req.topicParam) = t := ht.symm
  rcases hW : WriteLog w t p io with ⟨w1, e1⟩
  rw [hW] at h
  have h' : e1 = none := h
  subst h'
  simp only [handleWrite, hb, ht', hW]

/-- C3 witness: the amended theorem at a rotating Append — the index the
response carries is the written segment's index + 1. -/
theorem C3_response_segment_witness :
    (WriteLog walFresh "orders" bigPayload ioOK).1.currentSegmentIndex =
      walFresh.currentSegmentIndex + 1 :=
  (C3_response_segment walFresh reqBig bigPayload "orders" ioOK rfl (by decide) (by decide)).2.2.1
    (by decide)

theorem locStep_le (a : Int) (e : DirEntry) : a ≤ locStep a e := by
  rcases hc : codeSegIndex? e with _ | i <;> simp [locStep, hc]
  split <;> omega

theorem locFold_le (es : List DirEntry) (a : Int) : a ≤ es.foldl locStep a := by
  induction es generalizing a with
  | nil => simp
  | cons e t ih =>
      simp only [List.foldl_cons]
      exact le_trans (locStep_le a e) (ih (locStep a e))

theorem locStep_ub (a : Int) (e : DirEntry) (i : Int) (hc : codeSegIndex? e = some i) :
    i ≤ locStep a e := by
  simp only [locStep, hc]
  split <;> omega

theorem locFold_ub (es : List DirEntry) (a : Int) :
    ∀ e ∈ es, ∀ i, codeSegIndex? e = some i → i ≤ es.foldl locStep a := by
  induction es generalizing a with
  | nil =>
      intro e he
      cases he
  | cons e0 t ih =>
      intro e he i hc
      simp only [List.foldl_cons]
      rcases List.mem_cons.mp he with rfl | ht
      · exact le_trans (locStep_ub a e i hc) (locFold_le t (locStep a e))
      · exact ih (locStep a e0) e ht i hc

theorem locFold_attained (es : List DirEntry) (a : Int) :
    es.foldl locStep a = a ∨ ∃ e ∈ es, codeSegIndex? e = some (es.foldl locStep a) := by
  induction es generalizing a with
  | nil => exact Or.inl rfl
  | cons e0 t ih =>
      simp only [List.foldl_cons]
      rcases ih (locStep a e0) with h | ⟨e, he, hc⟩
      · rw [h]
        rcases hstep : codeSegIndex? e0 with _ | i
        · exact Or.inl (by simp [locStep, hstep])
        · by_cases hgt : i > a
          · refine Or.inr ⟨e0, List.mem_cons_self _ _, ?_⟩
            simp [locStep, hstep, hgt]
          · exact Or.inl (by simp [locStep, hstep, hgt])
      · exact Or.inr ⟨e, List.mem_cons_of_mem _ he, hc⟩

/-- C4 counterexample: a directory whose only file is named "wal_7" — not
of the form wal_(positive integer).log, so by the claim it should be
ignored and the locator should return 1 — makes findLastSegemtIndex return
7: TrimSuffix(".log") leaves "wal_7"'s remainder "7" unchanged and Atoi
accepts it. -/
theorem C4_counterexample :
    specSegIndex? "wal_7" = none ∧
    specLastSegIndex [⟨"wal_7", false⟩] = 1 ∧
    findLastSegemtIndex (some [⟨"wal_7", false⟩]) = (7, none) := by
  decide

/-- C4 (amended): findLastSegemtIndex never returns a non-nil error, returns
1 when the directory listing cannot be read, and otherwise returns the
numerically largest value parsed from the entries its loop accepts — any
non-directory entry whose name starts with "wal_" and whose remainder,
after stripping one trailing ".log" when present, parses with Atoi (so
names like "wal_7" without the suffix, or zero-padded ones, are counted
beyond the strict wal_(positive integer).log pattern) — and 1 when no
accepted entry parses to a positive value. -/
theorem C4_locator (es : List DirEntry) :
    findLastSegemtIndex none = (1, none) ∧
    (findLastSegemtIndex (some es)).2 = none ∧
    1 ≤ (findLastSegemtIndex (some es)).1 ∧
    (∀ e ∈ es, ∀ i, codeSegIndex? e = some i → i ≤ (findLastSegemtIndex (some es)).1) ∧
    ((findLastSegemtIndex (some es)).1 = 1 ∨
      ∃ e ∈ es, codeSegIndex? e = some ((findLastSegemtIndex (some es)).1)) := by
  refine ⟨rfl, ?_⟩
  have hfold0 : (0 : Int) ≤ es.foldl locStep 0 := locFold_le es 0
  by_cases h0 : es.foldl locStep 0 = 0
  · have hr : findLastSegemtIndex (some es) = (1, none) := by
      simp [findLastSegemtIndex, h0]
    rw [hr]
    refine ⟨rfl, le_refl 1, ?_, Or.inl rfl⟩
    intro e he i hc
    have hub := locFold_ub es 0 e he i hc
    rw [h0] at hub
    omega
  · have hr : findLastSegemtIndex (some es) = (es.foldl locStep 0, none) := by
      simp [findLastSegemtIndex, h0]
    rw [hr]
    refine ⟨rfl, by omega, ?_, ?_⟩
    · intro e he i hc
      exact locFold_ub es 0 e he i hc
    · rcases locFold_attained es 0 with h | hatt
      · exact absurd h h0
      · exact Or.inr hatt

/-- C4 witness: the amended theorem's upper bound applied to the directory
with segments 1, 2 and 5: the result is at least 5 (and, being attained,
exactly 5, the resume behaviour of the claim's good case). -/
theorem C4_locator_witness :
    (5 : Int) ≤ (findLastSegemtIndex (some [⟨"wal_1.log", false⟩, ⟨"wal_2.log", false⟩, ⟨"wal_5.log", false⟩])).1 :=
  (C4_locator [⟨"wal_1.log", false⟩, ⟨"wal_2.log", false⟩, ⟨"wal_5.log", false⟩]).2.2.2.1
    ⟨"wal_5.log", false⟩ (by decide) 5 (by decide)

theorem segmentFileName_sane (c : Cache) (d : String) (i : Int) (h : cacheSane c d i) :
    (segmentFileName c d i).1 = pureSegmentName d i := by
  rcases h with h | h <;> simp [segmentFileName, h]

theorem WriteLog_ioOK (w : WAL) (t p : String) : (WriteLog w t p ioOK).2 = none := by
  by_cases hsize : maxSegmentSize ≤ ((appendedContent w t p).utf8ByteSize : Int)
  · exact (WriteLog_ok_rot w t p ioOK rfl rfl rfl rfl rfl rfl hsize).1
  · rw [WriteLog_ok_small w t p ioOK rfl rfl rfl rfl hsize]

/-- C5: when the post-write size check finds the segment at or above the
threshold, the triggered rotation leaves the engine on segment index
previous + 1 whose file is the one named for that index, with a reset
(empty) buffer; the record that triggered the rotation is flushed and
fsynced in the old segment's file; and every subsequent successful Append
goes into the new segment's file. -/
theorem C5_rotation (w : WAL) (t p : String)
    (hsize : maxSegmentSize ≤ ((appendedContent w t p).utf8ByteSize : Int))
    (hsane : cacheSane w.cache w.directory (w.currentSegmentIndex + 1)) :
    (WriteLog w t p ioOK).2 = none ∧
    (WriteLog w t p ioOK).1.currentSegmentIndex = w.currentSegmentIndex + 1 ∧
    (WriteLog w t p ioOK).1.currentSegmentPath = pureSegmentName w.directory (w.currentSegmentIndex + 1) ∧
    (WriteLog w t p ioOK).1.buffer = "" ∧
    fsGet (WriteLog w t p ioOK).1.files w.currentSegmentPath =
      some ⟨appendedContent w t p, appendedContent w t p⟩ ∧
    (∀ t2 p2, (WriteLog (WriteLog w t p ioOK).1 t2 p2 ioOK).2 = none ∧
      fsGet (WriteLog (WriteLog w t p ioOK).1 t2 p2 ioOK).1.files (WriteLog w t p ioOK).1.currentSegmentPath =
        some ⟨appendedContent (WriteLog w t p ioOK).1 t2 p2, appendedContent (WriteLog w t p ioOK).1 t2 p2⟩) := by
  obtain ⟨h1, h2, h3, h4, h5, h6, h7⟩ := WriteLog_ok_rot w t p ioOK rfl rfl rfl rfl rfl rfl hsize
  refine ⟨h1, h3, ?_, h4, h7, ?_⟩
  · rw [h6, segmentFileName_sane _ _ _ hsane]
  · intro t2 p2
    exact ⟨WriteLog_ioOK _ t2 p2,
      (WriteLog_ok_facts _ t2 p2 ioOK (WriteLog_ioOK _ t2 p2)).1⟩

/-- C5 witness: a concrete rotating Append on the fresh engine moves it to
the file named for segment index 2. -/
theorem C5_rotation_witness :
    (WriteLog walFresh "t" bigPayload ioOK).1.currentSegmentPath =
      pureSegmentName walFresh.directory (walFresh.currentSegmentIndex + 1) :=
  (C5_rotation walFresh "t" bigPayload (by decide) (Or.inl (by decide))).2.2.1

/-- C6: the success path of newWriteAheadLOG derives the engine's starting
offset as 1 plus the byte size of the resumed segment file — not from a
count of its records — and therefore 1 exactly when the resumed segment is
empty or newly created. -/
theorem C6_initial_offset (listing : Option (List DirEntry)) (files : FileSys) :
    (newWriteAheadLOG listing files []).offset =
      1 + (((fsGet files (pureSegmentName walDir (findLastSegemtIndex listing).1)).getD ⟨"", ""⟩).osContent.utf8ByteSize : Int) ∧
    (newWriteAheadLOG listing [] []).offset = 1 := by
  constructor
  · rcases hg : fsGet files (pureSegmentName walDir (findLastSegemtIndex listing).1) with _ | fr <;>
      simp [newWriteAheadLOG, segmentFileName, cacheLookup, cacheKey, calculateOffset, hg]
  · simp [newWriteAheadLOG, segmentFileName, cacheLookup, cacheKey, calculateOffset, fsGet]
    decide

/-- C7: when the encode, flush or fsync step of an Append fails, the call
returns the distinguishable error of the step that failed, no rotation is
attempted and the engine's offset counter, segment index, open segment and
that segment's durable content are unchanged — the entry is not
committed, so the next Append will use the same offset. -/
theorem C7_failed_append (w : WAL) (t p : String) (io : IoEnv)
    (h : io.encodeOk = false ∨ io.flushOk = false ∨ io.syncOk = false) :
    ((WriteLog w t p io).1.offset = w.offset ∧
      (WriteLog w t p io).1.currentSegmentIndex = w.currentSegmentIndex ∧
      (WriteLog w t p io).1.currentSegmentPath = w.currentSegmentPath ∧
      (fileAt (WriteLog w t p io).1 w.currentSegmentPath).diskContent =
        (fileAt w w.currentSegmentPath).diskContent) ∧
    (io.encodeOk = false → (WriteLog w t p io).2 = some .encodeError) ∧
    (io.encodeOk = true → io.flushOk = false →
      (WriteLog w t p io).2 = some (.flushFailed .flushError)) ∧
    (io.encodeOk = true → io.flushOk = true → io.syncOk = false →
      (WriteLog w t p io).2 = some (.flushFailed .syncError)) := by
  rcases he : io.encodeOk with - | -
  · rw [WriteLog_encodeErr w t p io he]
    refine ⟨⟨rfl, rfl, rfl, rfl⟩, fun _ => rfl, ?_, ?_⟩ <;> simp [he]
  · rcases hf : io.flushOk with - | -
    · rw [WriteLog_flushErr w t p io he hf]
      refine ⟨⟨rfl, rfl, rfl, rfl⟩, ?_, fun _ _ => rfl, ?_⟩ <;> simp [he, hf]
    · rcases hs : io.syncOk with - | -
      · rw [WriteLog_syncErr w t p io he hf hs]
        refine ⟨⟨rfl, rfl, rfl, ?_⟩, ?_, ?_, fun _ _ _ => rfl⟩
        · simp [flushTo, fileAt, fsGet_fsSet_self]
        · simp [he]
        · simp [hf]
      · rcases h with h | h | h
        · simp [h] at he
        · simp [h] at hf
        · simp [h] at hs

/-- C7 witness: a flush failure on the fresh engine leaves the offset
counter where it was. -/
theorem C7_failed_append_witness :
    (WriteLog walFresh "t" "1" ⟨true, false, true, true, true, true⟩).1.offset = walFresh.offset :=
  ((C7_failed_append walFresh "t" "1" ⟨true, false, true, true, true, true⟩
    (Or.inr (Or.inl rfl))).1).1

/-- C10 (implicit): when the post-flush Stat fails, Append returns the stat
error, yet the record is already flushed and fsynced — durable on disk —
while the offset counter is not advanced and no rotation happens; the next
successful Append therefore writes a second record carrying the very same
offset value, which then sits on disk right after the first. -/
theorem C10_offset_reuse (w : WAL) (t p t2 p2 : String) :
    (WriteLog w t p ⟨true, true, true, false, true, true⟩).2 = some .statError ∧
    (WriteLog w t p ⟨true, true, true, false, true, true⟩).1.offset = w.offset ∧
    (WriteLog w t p ⟨true, true, true, false, true, true⟩).1.currentSegmentIndex = w.currentSegmentIndex ∧
    fsGet (WriteLog w t p ⟨true, true, true, false, true, true⟩).1.files w.currentSegmentPath =
      some ⟨appendedContent w t p, appendedContent w t p⟩ ∧
    (WriteLog (WriteLog w t p ⟨true, true, true, false, true, true⟩).1 t2 p2 ioOK).2 = none ∧
    fsGet (WriteLog (WriteLog w t p ⟨true, true, true, false, true, true⟩).1 t2 p2 ioOK).1.files w.currentSegmentPath =
      some ⟨appendedContent w t p ++ ("" ++ encodeLogEntry ⟨w.offset, t2, p2⟩),
            appendedContent w t p ++ ("" ++ encodeLogEntry ⟨w.offset, t2, p2⟩)⟩ := by
  have hst := WriteLog_statErr w t p ⟨true, true, true, false, true, true⟩ rfl rfl rfl rfl
  rw [hst]
  refine ⟨rfl, rfl, rfl, ?_, WriteLog_ioOK _ t2 p2, ?_⟩
  · simp [flushTo, fsGet_fsSet_self]
  · have hf := (WriteLog_ok_facts (flushTo w (appendedContent w t p) (appendedContent w t p))
      t2 p2 ioOK (WriteLog_ioOK _ t2 p2)).1
    simpa [appendedContent, flushTo, fileAt, fsGet_fsSet_self] using hf

/-- C9: the ingress contract — non-POST methods get 405; a POST whose body
does not decode as a JSON object gets 400 "Invalid payload" with the engine
untouched; otherwise the entry is appended under the topic query parameter,
or under "default" when that parameter is empty or absent; a failed Append
is answered 500 "Failed to write log", a successful one 201 with the
handler's JSON document. -/
theorem C9_http_contract (w : WAL) (req : HttpRequest) (io : IoEnv) :
    (req.method ≠ "POST" → ServerHTTP w req io = (w, .error 405 "Method not allowed")) ∧
    (req.method = "POST" → req.body = none →
      ServerHTTP w req io = (w, .error 400 "Invalid payload")) ∧
    (∀ p t, req.method = "POST" → req.body = some p →
      t = (if req.topicParam = "" then "default" else req.topicParam) →
      ((WriteLog w t p io).2 ≠ none →
        ServerHTTP w req io = ((WriteLog w t p io).1, .error 500 "Failed to write log")) ∧
      ((WriteLog w t p io).2 = none →
        ServerHTTP w req io = ((WriteLog w t p io).1,
          .created (WriteLog w t p io).1.offset (WriteLog w t p io).1.currentSegmentIndex t p
            "Log entry written successfully" (WriteLog w t p io).1.currentSegmentPath))) := by
  refine ⟨fun hm => by simp [ServerHTTP, hm], fun hm hb => by simp [ServerHTTP, hm, handleWrite, hb], ?_⟩
  intro p t hm hb ht
  have ht' : (if req.topicParam = "" then "default" else req.topicParam) = t := ht.symm
  constructor
  · intro he
    rcases hW : WriteLog w t p io with ⟨w1, e1⟩
    rw [hW] at he
    cases e1 with
    | none => exact absurd rfl he
    | some err => simp [ServerHTTP, hm, handleWrite, hb, ht', hW]
  · intro hok
    rcases hW : WriteLog w t p io with ⟨w1, e1⟩
    rw [hW] at hok
    have h1 : e1 = none := hok
    subst h1
    simp [ServerHTTP, hm, handleWrite, hb, ht', hW]

/-- C9 witness: a GET against the fresh engine is answered 405 without
touching the engine. -/
theorem C9_http_contract_witness :
    ServerHTTP walFresh ⟨"GET", "", none⟩ ioOK = (walFresh, .error 405 "Method not allowed") :=
  (C9_http_contract walFresh ⟨"GET", "", none⟩ ioOK).1 (by decide)

theorem digitChar_ne_colon (n : Nat) : Nat.digitChar n ≠ ':' := by
  by_cases h16 : n < 16
  · interval_cases n <;> decide
  · have hstar : Nat.digitChar n = '*' := by
      unfold Nat.digitChar
      iterate 16 rw [if_neg (show _ by omega)]
    rw [hstar]
    decide

theorem toDigitsCore_ne_colon (fuel : Nat) :
    ∀ (n : Nat) (ds : List Char), ':' ∉ ds → ':' ∉ Nat.toDigitsCore 10 fuel n ds := by
  induction fuel with
  | zero =>
      intro n ds hds
      simpa [Nat.toDigitsCore] using hds
  | succ fuel ih =>
      intro n ds hds
      rw [Nat.toDigitsCore]
      have hcons : ':' ∉ Nat.digitChar (n % 10) :: ds := by
        simp only [List.mem_cons, not_or]
        exact ⟨fun hc => digitChar_ne_colon (n % 10) hc.symm, hds⟩
      split
      · exact hcons
      · exact ih (n / 10) (Nat.digitChar (n % 10) :: ds) hcons

theorem natRepr_ne_colon (n : Nat) : ':' ∉ (Nat.repr n).data :=
  toDigitsCore_ne_colon (n + 1) n [] (by simp)

theorem intToString_ne_colon (i : Int) : ':' ∉ (toString i).data := by
  cases i with
  | ofNat n => exact natRepr_ne_colon n
  | negSucc n =>
      show ':' ∉ ("-" ++ Nat.repr (n + 1)).data
      rw [String.data_append]
      simp only [List.mem_append, not_or]
      exact ⟨by decide, natRepr_ne_colon (n + 1)⟩

theorem colon_split (a : List Char) :
    ∀ (b s u : List Char), ':' ∉ s → ':' ∉ u →
      a ++ ':' :: s = b ++ ':' :: u → a = b ∧ s = u := by
  induction a with
  | nil =>
      intro b s u hs hu heq
      cases b with
      | nil =>
          simp only [List.nil_append, List.cons.injEq] at heq
          exact ⟨rfl, heq.2⟩
      | cons c bt =>
          simp only [List.nil_append, List.cons_append, List.cons.injEq] at heq
          exfalso
          apply hs
          rw [heq.2]
          exact List.mem_append_right bt (List.mem_cons_self ':' u)
  | cons c at2 ih =>
      intro b s u hs hu heq
      cases b with
      | nil =>
          simp only [List.cons_append, List.nil_append, List.cons.injEq] at heq
          exfalso
          apply hu
          rw [← heq.2]
          exact List.mem_append_right at2 (List.mem_cons_self ':' s)
      | cons d bt =>
          simp only [List.cons_append, List.cons.injEq] at heq
          obtain ⟨h1, h2⟩ := ih bt s u hs hu heq.2
          exact ⟨by rw [heq.1, h1], h2⟩

theorem cacheKey_inj (d d2 : String) (i i2 : Int) (h : cacheKey d i = cacheKey d2 i2) :
    d = d2 ∧ toString i = toString i2 := by
  have hdata : d.data ++ ':' :: (toString i).data = d2.data ++ ':' :: (toString i2).data := by
    have hc := congrArg String.data h
    simpa [cacheKey, String.data_append, show (":" : String).data = [':'] from rfl] using hc
  obtain ⟨h1, h2⟩ := colon_split d.data d2.data (toString i).data (toString i2).data
    (intToString_ne_colon i) (intToString_ne_colon i2) hdata
  exact ⟨String.ext h1, String.ext h2⟩

theorem pureSegmentName_congr (d d2 : String) (i i2 : Int)
    (hd : d = d2) (ht : toString i = toString i2) :
    pureSegmentName d i = pureSegmentName d2 i2 := by
  rw [pureSegmentName, pureSegmentName, hd, ht]

theorem cacheLookup_good (c : Cache) (hg : CacheGood c) (d : String) (i : Int) (v : String)
    (h : cacheLookup c (cacheKey d i) = some v) : v = pureSegmentName d i := by
  induction c with
  | nil => cases h
  | cons e ct ih =>
      obtain ⟨k, val⟩ := e
      by_cases hk : k = cacheKey d i
      · simp only [cacheLookup, hk, if_pos] at h
        obtain ⟨d2, i2, hkey, hval⟩ := hg (k, val) (List.mem_cons_self _ _)
        obtain ⟨hd, hts⟩ := cacheKey_inj d2 d i2 i (by rw [← hkey, hk])
        have hv : val = v := by injection h
        have hval' : val = pureSegmentName d2 i2 := hval
        rw [← hv, hval']
        exact pureSegmentName_congr d2 d i2 i hd hts
      · simp only [cacheLookup, hk, if_neg, if_false] at h
        exact ih (fun e2 he2 => hg e2 (List.mem_cons_of_mem _ he2)) h

/-- C8: segmentFileName is, observably, the pure function of (directory,
index) that joins the directory with "wal_", the decimal index without
padding and ".log" — on any run-reachable cache (CacheGood covers the
empty cache and is preserved by every call) the cache never changes the
result, and an immediately repeated call returns the same path. -/
theorem C8_segment_name_stable (c : Cache) (d : String) (i : Int) (hg : CacheGood c) :
    (segmentFileName c d i).1 = pureSegmentName d i ∧
    CacheGood (segmentFileName c d i).2 ∧
    (segmentFileName (segmentFileName c d i).2 d i).1 = (segmentFileName c d i).1 := by
  have hpure : ∀ c2 : Cache, CacheGood c2 → (segmentFileName c2 d i).1 = pureSegmentName d i := by
    intro c2 hg2
    rcases hl : cacheLookup c2 (cacheKey d i) with - | v
    · simp [segmentFileName, hl]
    · simpa [segmentFileName, hl] using cacheLookup_good c2 hg2 d i v hl
  have h1 : (segmentFileName c d i).1 = pureSegmentName d i := hpure c hg
  have h2 : CacheGood (segmentFileName c d i).2 := by
    rcases hl : cacheLookup c (cacheKey d i) with - | v
    · simp only [segmentFileName, hl]
      intro e he
      rcases List.mem_cons.mp he with rfl | he2
      · exact ⟨d, i, rfl, rfl⟩
      · exact hg e he2
    · simpa [segmentFileName, hl] using hg
  exact ⟨h1, h2, by rw [hpure _ h2, h1]⟩

/-- C8 witness: starting from the empty cache (process start), the name of
segment 1 of the wal_data directory is the joined path, and the theorem's
pure-value conclusion applies to it. -/
theorem C8_segment_name_stable_witness :
    pureSegmentName walDir 1 = "wal_data/wal_1.log" ∧
    (segmentFileName [] walDir 1).1 = pureSegmentName walDir 1 :=
  ⟨by decide, (C8_segment_name_stable [] walDir 1 (by simp [CacheGood])).1⟩
